import Mathlib

/-!
Shallow embedding of the gokismet library (gokismet.go, the `Checker`-based
version whose user agent constant is "Gokismet/3.0") and proofs of the
specification claims about it.

Go's `map[string]string` is modelled as an association list built only
through `mapSet` (so keys stay unique), the HTTP client as an oracle
function from requests to responses, and the lazily verified `Checker`
as explicit state passing.
-/

set_option autoImplicit false

namespace Gokismet

/-! Constants from gokismet.go. -/

/-- Go constant `UA`: the library user agent. -/
def UA : String := "Gokismet/3.0"

/-- Go constant `pkKey`. -/
def pkKey : String := "key"

/-- Go constant `pkSite`. -/
def pkSite : String := "blog"

/-- Go constant `reqScheme`. -/
def reqScheme : String := "https"

/-- Go constant `reqHost`. -/
def reqHost : String := "rest.akismet.com"

/-- Go constant `reqAPIVersion`. -/
def reqAPIVersion : String := "1.1"

/-- Go constant `reqVerifyKey`. -/
def reqVerifyKey : String := "verify-key"

/-- Go constant `reqCheckComment`. -/
def reqCheckComment : String := "comment-check"

/-- Go constant `reqSubmitHam`. -/
def reqSubmitHam : String := "submit-ham"

/-- Go constant `reqSubmitSpam`. -/
def reqSubmitSpam : String := "submit-spam"

/-- Go constant `hdrHelp`: the diagnostic hint response header. -/
def hdrHelp : String := "X-Akismet-Debug-Help"

/-- Go constant `hdrProTip`: the pervasive-spam response header. -/
def hdrProTip : String := "X-Akismet-Pro-Tip"

/-- Go constant `hdrUserAgent`. -/
def hdrUserAgent : String := "User-Agent"

/-- Go constant `respVerified`. -/
def respVerified : String := "valid"

/-- Go constant `respHam`. -/
def respHam : String := "false"

/-- Go constant `respSpam`. -/
def respSpam : String := "true"

/-- Go constant `respSubmitted`: the fixed thank-you literal. -/
def respSubmitted : String := "Thanks for making the web a better place."

/-- Go constant `respDiscard`. -/
def respDiscard : String := "discard"

/-! Go maps as association lists. A Go map has unique keys; every map in
this development is built from `[]` or a literal with distinct keys by
`mapSet`, which preserves key uniqueness. -/

/-- Go map assignment `m[k] = v`: replace the binding of `k` if present,
otherwise append it. -/
def mapSet {α β : Type} [DecidableEq α] : List (α × β) → α → β → List (α × β)
  | [], k, v => [(k, v)]
  | (k', v') :: rest, k, v =>
    if k' = k then (k, v) :: rest else (k', v') :: mapSet rest k v

/-- Go map lookup `m[k]` as an `Option`. -/
def mapGet {α β : Type} [DecidableEq α] : List (α × β) → α → Option β
  | [], _ => none
  | (k', v) :: rest, k => if k' = k then some v else mapGet rest k

/-- Body of Go `mergeMaps`: the inner `merge` closure folded over the
entries of `src`, writing each of them into `dst`. -/
def mergeInto {α β : Type} [DecidableEq α] (dst src : List (α × β)) : List (α × β) :=
  src.foldl (fun d p => mapSet d p.1 p.2) dst

/-- Go `mergeMaps`: consolidate several maps, later maps taking
priority over earlier ones. -/
def mergeMaps (maps : List (List (String × String))) : List (String × String) :=
  maps.foldl mergeInto []

/-- Go `http.Header.Get`: yields the empty string when the header
is absent. -/
def headerGet (h : List (String × String)) (k : String) : String :=
  (mapGet h k).getD ""

/-! The data model of the Checker. -/

/-- Go `type APICall uint32`; only the four named constants below are
meaningful, but any machine integer inhabits the type. -/
abbrev APICall := Nat

/-- Go constant `APIVerifyKey`. -/
def APIVerifyKey : APICall := 0

/-- Go constant `APICheckComment`. -/
def APICheckComment : APICall := 1

/-- Go constant `APISubmitHam`. -/
def APISubmitHam : APICall := 2

/-- Go constant `APISubmitSpam`. -/
def APISubmitSpam : APICall := 3

/-- Go `type SpamStatus uint32`. -/
abbrev SpamStatus := Nat

/-- Go constant `StatusUnknown` (the zero value, indicating an error). -/
def StatusUnknown : SpamStatus := 0

/-- Go constant `StatusHam`. -/
def StatusHam : SpamStatus := 1

/-- Go constant `StatusProbableSpam`. -/
def StatusProbableSpam : SpamStatus := 2

/-- Go constant `StatusDefiniteSpam`. -/
def StatusDefiniteSpam : SpamStatus := 3

/-- Go `Checker` struct. The Go struct also holds the HTTP client;
the client is immutable for the object's lifetime, so it is modelled
as an explicit argument of the operations instead of a field. -/
structure Checker where
  key : String
  site : String
  verified : Bool
deriving DecidableEq, Repr

/-- Go `NewChecker` (composed with `NewCheckerWithClient`): the
`verified` field starts out false. -/
def NewChecker (key site : String) : Checker :=
  { key := key, site := site, verified := false }

/-- An HTTP response as observed by the Checker: status code, status
line text (Go `resp.Status`, e.g. "200 OK"), headers and body. -/
structure HTTPResponse where
  statusCode : Nat
  status : String
  headers : List (String × String)
  body : String
deriving DecidableEq, Repr

/-- An outgoing Akismet request: which API call it serves, the endpoint
URL, and the merged parameter map that forms its body. -/
structure Request where
  call : APICall
  url : String
  params : List (String × String)
deriving DecidableEq, Repr

/-- The HTTP client, modelled as an oracle mapping each request to the
response the service gives for it. -/
def Client : Type := Request → HTTPResponse

/-- Go `APIError` struct: a structured error from an API call. -/
structure APIError where
  call : APICall
  result : String
  help : String
deriving DecidableEq, Repr

/-- Go `AuthError` struct: a structured key-verification failure. -/
structure AuthError where
  key : String
  site : String
  result : String
  help : String
deriving DecidableEq, Repr

/-- The structured errors a Checker operation can return. -/
inductive GError where
  | api (e : APIError)
  | auth (e : AuthError)
deriving DecidableEq, Repr

/-- Outcome of an internal step: either a structured Go error value, or
a Go panic (`endpoint` panics on an unknown API call). -/
inductive Failure where
  | goPanic (msg : String)
  | err (e : GError)
deriving DecidableEq, Repr

/-- Whether a failure is a panic rather than a structured error. -/
def Failure.isPanic : Failure → Bool
  | .goPanic _ => true
  | .err _ => false

/-- Whether an optional failure is a panic. -/
def errIsPanic : Option Failure → Bool
  | some f => f.isPanic
  | none => false

/-- Go `newAPIError`: records the call, the result text, and the
diagnostic hint header if present. -/
def newAPIError (call : APICall) (result : String) (header : List (String × String)) : GError :=
  .api { call := call, result := result, help := headerGet header hdrHelp }

/-- Go `newAuthError`. -/
def newAuthError (key site result : String) (header : List (String × String)) : GError :=
  .auth { key := key, site := site, result := result, help := headerGet header hdrHelp }

/-- Go `endpoint`: the REST endpoint URL for an API call and key.
`none` models the `panic("url: Unknown API Call")` branch. The
stdlib `url.URL.String` is modelled as plain formatting of
scheme, host and path, which is what it produces for these
constant components. -/
def endpoint (call : APICall) (key : String) : Option String :=
  let sel : Option (String × Bool) :=
    if call = APIVerifyKey then some (reqVerifyKey, false)
    else if call = APICheckComment then some (reqCheckComment, true)
    else if call = APISubmitHam then some (reqSubmitHam, true)
    else if call = APISubmitSpam then some (reqSubmitSpam, true)
    else none
  match sel with
  | none => none
  | some (command, qualified) =>
    let host := if qualified then key ++ "." ++ reqHost else reqHost
    some (reqScheme ++ "://" ++ host ++ "/" ++ reqAPIVersion ++ "/" ++ command)

/-- The request `Checker.execute` sends for a given call and caller
parameters: the endpoint URL plus the caller map merged over the
default site parameter, exactly as in the Go source. -/
def requestFor (ch : Checker) (call : APICall) (params : List (String × String)) :
    Option Request :=
  (endpoint call ch.key).map
    (fun u => { call := call, url := u, params := mergeMaps [[(pkSite, ch.site)], params] })

/-- Go `Checker.execute`: build the request, send it, treat any non-200
status as an `APIError` whose result is "Status " plus the status line,
and otherwise return body and headers. Also returns the list of
requests actually sent, for counting. -/
def execute (ch : Checker) (client : Client) (call : APICall)
    (params : List (String × String)) :
    Except Failure (String × List (String × String)) × List Request :=
  match requestFor ch call params with
  | none => (.error (.goPanic "url: Unknown API Call"), [])
  | some req =>
    let resp := client req
    if resp.statusCode ≠ 200 then
      (.error (.err (newAPIError call ("Status " ++ resp.status) resp.headers)), [req])
    else
      (.ok (resp.body, resp.headers), [req])

/-- Go `Checker.verify`: issue a verify-key call with the key and site
as parameters; succeed exactly on body "valid". -/
def verify (ch : Checker) (client : Client) : Except Failure Unit × List Request :=
  match execute ch client APIVerifyKey [(pkKey, ch.key), (pkSite, ch.site)] with
  | (.error f, tr) => (.error f, tr)
  | (.ok (body, header), tr) =>
    if body = respVerified then (.ok (), tr)
    else (.error (.err (newAuthError ch.key ch.site body header)), tr)

/-- Result of `Checker.Check`: the spam status and error it returns,
the checker state after the call, and the requests sent. -/
structure CheckResult where
  status : SpamStatus
  error : Option Failure
  checker : Checker
  trace : List Request
deriving Repr

/-- Result of `Checker.submit`. -/
structure SubmitResult where
  error : Option Failure
  checker : Checker
  trace : List Request
deriving Repr

/-- The part of Go `Checker.Check` after the verification gate:
execute the comment-check call and interpret body and pro-tip header. -/
def checkBody (ch : Checker) (client : Client) (values : List (String × String))
    (tr0 : List Request) : CheckResult :=
  match execute ch client APICheckComment values with
  | (.error f, tr) => ⟨StatusUnknown, some f, ch, tr0 ++ tr⟩
  | (.ok (body, header), tr) =>
    if body = respHam then
      ⟨StatusHam, none, ch, tr0 ++ tr⟩
    else if body = respSpam ∧ headerGet header hdrProTip = respDiscard then
      ⟨StatusDefiniteSpam, none, ch, tr0 ++ tr⟩
    else if body = respSpam then
      ⟨StatusProbableSpam, none, ch, tr0 ++ tr⟩
    else
      ⟨StatusUnknown, some (.err (newAPIError APICheckComment body header)), ch, tr0 ++ tr⟩

/-- Go `Checker.Check`: verify lazily on first use, then check the
values for spam. -/
def check (ch : Checker) (client : Client) (values : List (String × String)) : CheckResult :=
  if ch.verified then
    checkBody ch client values []
  else
    match verify ch client with
    | (.error f, tr) => ⟨StatusUnknown, some f, ch, tr⟩
    | (.ok _, tr) => checkBody { ch with verified := true } client values tr

/-- The part of Go `Checker.submit` after the verification gate:
execute the call and demand the fixed thank-you literal. -/
def submitBody (ch : Checker) (client : Client) (call : APICall)
    (values : List (String × String)) (tr0 : List Request) : SubmitResult :=
  match execute ch client call values with
  | (.error f, tr) => ⟨some f, ch, tr0 ++ tr⟩
  | (.ok (body, header), tr) =>
    if body ≠ respSubmitted then
      ⟨some (.err (newAPIError call body header)), ch, tr0 ++ tr⟩
    else
      ⟨none, ch, tr0 ++ tr⟩

/-- Go `Checker.submit`: verify lazily on first use, then submit. -/
def submit (ch : Checker) (client : Client) (call : APICall)
    (values : List (String × String)) : SubmitResult :=
  if ch.verified then
    submitBody ch client call values []
  else
    match verify ch client with
    | (.error f, tr) => ⟨some f, ch, tr⟩
    | (.ok _, tr) => submitBody { ch with verified := true } client call values tr

/-- Go `Checker.SubmitHam`. -/
def submitHam (ch : Checker) (client : Client) (values : List (String × String)) : SubmitResult :=
  submit ch client APISubmitHam values

/-- Go `Checker.SubmitSpam`. -/
def submitSpam (ch : Checker) (client : Client) (values : List (String × String)) : SubmitResult :=
  submit ch client APISubmitSpam values

/-! An operational layer over the public Checker methods: sequences of
public calls against one Checker instance, with the resulting request
traffic, used to reason about how often verification requests occur. -/

/-- One public Checker call together with its argument map. -/
inductive Op where
  | doCheck (values : List (String × String))
  | doSubmitHam (values : List (String × String))
  | doSubmitSpam (values : List (String × String))
deriving Repr

/-- The caller-supplied parameter map of a public call. -/
def Op.values : Op → List (String × String)
  | .doCheck v => v
  | .doSubmitHam v => v
  | .doSubmitSpam v => v

/-- Run one public call: the Checker state afterwards and the requests
sent during the call. -/
def stepOp (ch : Checker) (client : Client) : Op → Checker × List Request
  | .doCheck v => ((check ch client v).checker, (check ch client v).trace)
  | .doSubmitHam v => ((submitHam ch client v).checker, (submitHam ch client v).trace)
  | .doSubmitSpam v => ((submitSpam ch client v).checker, (submitSpam ch client v).trace)

/-- Run a sequence of public calls on the same Checker instance. -/
def runOps (ch : Checker) (client : Client) : List Op → Checker × List Request
  | [] => (ch, [])
  | op :: ops =>
    let s := stepOp ch client op
    let rest := runOps s.1 client ops
    (rest.1, s.2 ++ rest.2)

/-- The number of verification (verify-key) requests in a trace. -/
def countVerify (tr : List Request) : Nat :=
  tr.countP (fun r => decide (r.call = APIVerifyKey))

/-- The verification request a given Checker sends, with the key and
site as parameters merged over the default site parameter. -/
def verifyReq (ch : Checker) : Request :=
  { call := APIVerifyKey,
    url := reqScheme ++ "://" ++ reqHost ++ "/" ++ reqAPIVersion ++ "/" ++ reqVerifyKey,
    params := mergeMaps [[(pkSite, ch.site)], [(pkKey, ch.key), (pkSite, ch.site)]] }

/-! The header-injecting client decorator (`WrapClient` and
`clientWithHeaders.Do`). Only the request headers flow is modelled:
what matters for the claims is which headers the base transport sees. -/

/-- A chain of header-injecting decorators around a base client, as
built by iterated `WrapClient` calls. -/
inductive HClient where
  | base
  | wrap (headers : List (String × String)) (inner : HClient)

/-- The header-setting loop of Go `clientWithHeaders.Do`: set each
decorator entry on the request headers, overwriting. -/
def setHeaders (req headers : List (String × String)) : List (String × String) :=
  headers.foldl (fun r p => mapSet r p.1 p.2) req

/-- The request headers the base transport receives once a request has
passed through the whole decorator chain: each decorator sets its
headers and then delegates to the client it wraps. -/
def baseSees : HClient → List (String × String) → List (String × String)
  | .base, req => req
  | .wrap hs inner, req => baseSees inner (setHeaders req hs)

/-! Lemmas about the map model. -/

theorem mapGet_mapSet {α β : Type} [DecidableEq α] (m : List (α × β)) (k k' : α) (v : β) :
    mapGet (mapSet m k v) k' = if k = k' then some v else mapGet m k' := by
  induction m with
  | nil => simp [mapSet, mapGet]
  | cons p rest ih =>
    obtain ⟨a, b⟩ := p
    by_cases hak : a = k
    · subst hak
      simp only [mapSet, if_pos rfl, mapGet]
      split_ifs with h <;> simp [mapGet, h]
    · simp only [mapSet, if_neg hak, mapGet]
      split_ifs with h1 h2 <;> simp_all [mapGet]

theorem mapGet_eq_none {α β : Type} [DecidableEq α] {m : List (α × β)} {k : α}
    (h : k ∉ m.map Prod.fst) : mapGet m k = none := by
  induction m with
  | nil => rfl
  | cons p rest ih =>
    obtain ⟨a, b⟩ := p
    simp only [List.map_cons, List.mem_cons] at h
    push_neg at h
    simp only [mapGet, if_neg (Ne.symm h.1)]
    exact ih h.2

theorem mapGet_foldl_mapSet {α β : Type} [DecidableEq α] (src : List (α × β))
    (dst : List (α × β)) (hnd : (src.map Prod.fst).Nodup) (k : α) :
    mapGet (src.foldl (fun d p => mapSet d p.1 p.2) dst) k =
      (mapGet src k).or (mapGet dst k) := by
  induction src generalizing dst with
  | nil =>
    simp only [List.foldl_nil, mapGet]
    cases mapGet dst k <;> rfl
  | cons p rest ih =>
    simp only [List.map_cons, List.nodup_cons] at hnd
    rw [List.foldl_cons, ih _ hnd.2]
    by_cases hk : p.1 = k
    · have hrest : mapGet rest k = none := mapGet_eq_none (hk ▸ hnd.1)
      simp [mapGet, hrest, mapGet_mapSet, hk, Option.or]
    · simp only [mapGet, mapGet_mapSet, if_neg hk]

theorem mapGet_mergeInto {α β : Type} [DecidableEq α] (src dst : List (α × β))
    (hnd : (src.map Prod.fst).Nodup) (k : α) :
    mapGet (mergeInto dst src) k = (mapGet src k).or (mapGet dst k) :=
  mapGet_foldl_mapSet src dst hnd k

theorem mapGet_setHeaders (req headers : List (String × String))
    (hnd : (headers.map Prod.fst).Nodup) (k : String) :
    mapGet (setHeaders req headers) k = (mapGet headers k).or (mapGet req k) :=
  mapGet_foldl_mapSet headers req hnd k

theorem mergeMaps_default (site : String) (values : List (String × String)) :
    mergeMaps [[(pkSite, site)], values] = mergeInto [(pkSite, site)] values := rfl

theorem mapGet_mergeMaps_default (site : String) (values : List (String × String))
    (hnd : (values.map Prod.fst).Nodup) (k : String) :
    mapGet (mergeMaps [[(pkSite, site)], values]) k =
      (mapGet values k).or (if pkSite = k then some site else none) := by
  rw [mergeMaps_default, mapGet_mergeInto values _ hnd k]
  simp [mapGet]

/-! Characterisation lemmas for the Checker operations. -/

theorem requestFor_eq_verifyReq (ch : Checker) :
    requestFor ch APIVerifyKey [(pkKey, ch.key), (pkSite, ch.site)] = some (verifyReq ch) := rfl

theorem requestFor_call {ch : Checker} {call : APICall}
    {params : List (String × String)} {req : Request}
    (h : requestFor ch call params = some req) : req.call = call := by
  rcases Option.map_eq_some'.1 h with ⟨u, _, rfl⟩
  rfl

theorem requestFor_params {ch : Checker} {call : APICall}
    {params : List (String × String)} {req : Request}
    (h : requestFor ch call params = some req) :
    req.params = mergeMaps [[(pkSite, ch.site)], params] := by
  rcases Option.map_eq_some'.1 h with ⟨u, _, rfl⟩
  rfl

theorem execute_trace_some {ch : Checker} {client : Client} {call : APICall}
    {params : List (String × String)} {req : Request}
    (h : requestFor ch call params = some req) :
    (execute ch client call params).2 = [req] := by
  simp only [execute, h]
  split <;> rfl

theorem verify_eq (ch : Checker) (client : Client) :
    verify ch client =
      (if (client (verifyReq ch)).statusCode ≠ 200 then
        (.error (.err (newAPIError APIVerifyKey ("Status " ++ (client (verifyReq ch)).status)
          (client (verifyReq ch)).headers)), [verifyReq ch])
      else if (client (verifyReq ch)).body = respVerified then
        (.ok (), [verifyReq ch])
      else
        (.error (.err (newAuthError ch.key ch.site (client (verifyReq ch)).body
          (client (verifyReq ch)).headers)), [verifyReq ch])) := by
  by_cases h200 : (client (verifyReq ch)).statusCode = 200
  · by_cases hv : (client (verifyReq ch)).body = respVerified
    · simp [verify, execute, requestFor_eq_verifyReq, h200, hv]
    · simp [verify, execute, requestFor_eq_verifyReq, h200, hv]
  · simp [verify, execute, requestFor_eq_verifyReq, h200]

theorem verify_trace (ch : Checker) (client : Client) :
    (verify ch client).2 = [verifyReq ch] := by
  rw [verify_eq]
  split_ifs <;> rfl

theorem checkBody_checker (ch : Checker) (client : Client) (values : List (String × String))
    (tr0 : List Request) : (checkBody ch client values tr0).checker = ch := by
  rcases h : execute ch client APICheckComment values with ⟨f | ⟨body, header⟩, tr⟩
  · simp [checkBody, h]
  · simp only [checkBody, h]
    split_ifs <;> rfl

theorem checkBody_trace (ch : Checker) (client : Client) (values : List (String × String))
    (tr0 : List Request) :
    (checkBody ch client values tr0).trace = tr0 ++ (execute ch client APICheckComment values).2 := by
  rcases h : execute ch client APICheckComment values with ⟨f | ⟨body, header⟩, tr⟩
  · simp [checkBody, h]
  · simp only [checkBody, h]
    split_ifs <;> rfl

theorem submitBody_checker (ch : Checker) (client : Client) (call : APICall)
    (values : List (String × String)) (tr0 : List Request) :
    (submitBody ch client call values tr0).checker = ch := by
  rcases h : execute ch client call values with ⟨f | ⟨body, header⟩, tr⟩
  · simp [submitBody, h]
  · simp only [submitBody, h]
    split_ifs <;> rfl

theorem submitBody_trace (ch : Checker) (client : Client) (call : APICall)
    (values : List (String × String)) (tr0 : List Request) :
    (submitBody ch client call values tr0).trace = tr0 ++ (execute ch client call values).2 := by
  rcases h : execute ch client call values with ⟨f | ⟨body, header⟩, tr⟩
  · simp [submitBody, h]
  · simp only [submitBody, h]
    split_ifs <;> rfl

theorem check_verified {ch : Checker} (client : Client) {values : List (String × String)}
    (h : ch.verified = true) : check ch client values = checkBody ch client values [] := by
  simp [check, h]

theorem check_unverified {ch : Checker} (client : Client) {values : List (String × String)}
    (h : ch.verified = false) :
    check ch client values =
      (match verify ch client with
      | (.error f, tr) => ⟨StatusUnknown, some f, ch, tr⟩
      | (.ok _, tr) => checkBody { ch with verified := true } client values tr) := by
  simp [check, h]

theorem submit_verified {ch : Checker} (client : Client) {call : APICall}
    {values : List (String × String)} (h : ch.verified = true) :
    submit ch client call values = submitBody ch client call values [] := by
  simp [submit, h]

theorem submit_unverified {ch : Checker} (client : Client) {call : APICall}
    {values : List (String × String)} (h : ch.verified = false) :
    submit ch client call values =
      (match verify ch client with
      | (.error f, tr) => ⟨some f, ch, tr⟩
      | (.ok _, tr) => submitBody { ch with verified := true } client call values tr) := by
  simp [submit, h]

theorem countVerify_append (a b : List Request) :
    countVerify (a ++ b) = countVerify a + countVerify b := by
  simp [countVerify]

theorem countVerify_verifyTrace (ch : Checker) (client : Client) :
    countVerify (verify ch client).2 = 1 := by
  rw [verify_trace]
  rfl

theorem countVerify_execute_ne (call : APICall) (hne : call ≠ APIVerifyKey) (ch : Checker)
    (client : Client) (params : List (String × String)) :
    countVerify (execute ch client call params).2 = 0 := by
  cases hreq : requestFor ch call params with
  | none => simp [execute, hreq, countVerify]
  | some req =>
    rw [execute_trace_some hreq]
    simp [countVerify, List.countP_cons, requestFor_call hreq, hne]

theorem countVerify_single (ch : Checker) : countVerify [verifyReq ch] = 1 := rfl

theorem check_countVerify (ch : Checker) (client : Client) (values : List (String × String)) :
    countVerify (check ch client values).trace = if ch.verified = true then 0 else 1 := by
  by_cases h : ch.verified = true
  · rw [check_verified client h, checkBody_trace, List.nil_append,
        countVerify_execute_ne APICheckComment (by decide) ch client values]
    simp [h]
  · have h' : ch.verified = false := by simpa using h
    rw [check_unverified client h']
    rcases hv : verify ch client with ⟨f | u, tr⟩ <;>
      have htr : tr = [verifyReq ch] := by
        have := verify_trace ch client
        rw [hv] at this
        exact this
    · simp [htr, h, countVerify_single]
    · simp only [checkBody_trace, htr, h, if_false]
      rw [countVerify_append,
          countVerify_execute_ne APICheckComment (by decide) _ client values,
          countVerify_single]
      simp

theorem submit_countVerify (ch : Checker) (client : Client) {call : APICall}
    (hne : call ≠ APIVerifyKey) (values : List (String × String)) :
    countVerify (submit ch client call values).trace = if ch.verified = true then 0 else 1 := by
  by_cases h : ch.verified = true
  · rw [submit_verified client h, submitBody_trace, List.nil_append,
        countVerify_execute_ne call hne ch client values]
    simp [h]
  · have h' : ch.verified = false := by simpa using h
    rw [submit_unverified client h']
    rcases hv : verify ch client with ⟨f | u, tr⟩ <;>
      have htr : tr = [verifyReq ch] := by
        have := verify_trace ch client
        rw [hv] at this
        exact this
    · simp [htr, h, countVerify_single]
    · simp only [submitBody_trace, htr, h, if_false]
      rw [countVerify_append,
          countVerify_execute_ne call hne _ client values,
          countVerify_single]
      simp

theorem stepOp_count (ch : Checker) (client : Client) (op : Op) :
    countVerify (stepOp ch client op).2 = if ch.verified = true then 0 else 1 := by
  cases op with
  | doCheck v => exact check_countVerify ch client v
  | doSubmitHam v => exact submit_countVerify ch client (by decide) v
  | doSubmitSpam v => exact submit_countVerify ch client (by decide) v

theorem stepOp_checker_verified {ch : Checker} (client : Client) (op : Op)
    (h : ch.verified = true) : (stepOp ch client op).1 = ch := by
  cases op with
  | doCheck v => simp [stepOp, check_verified client h, checkBody_checker]
  | doSubmitHam v => simp [stepOp, submitHam, submit_verified client h, submitBody_checker]
  | doSubmitSpam v => simp [stepOp, submitSpam, submit_verified client h, submitBody_checker]

theorem runOps_count_zero (client : Client) (ops : List Op) :
    ∀ ch : Checker, ch.verified = true → countVerify (runOps ch client ops).2 = 0 := by
  induction ops with
  | nil => intro ch _; rfl
  | cons op ops ih =>
    intro ch h
    simp only [runOps, countVerify_append]
    rw [stepOp_count ch client op]
    rw [stepOp_checker_verified client op h]
    simp [h, ih ch h]

theorem execute_ok {ch : Checker} {client : Client} {call : APICall}
    {params : List (String × String)} {req : Request}
    (h : requestFor ch call params = some req) (h200 : (client req).statusCode = 200) :
    execute ch client call params = (.ok ((client req).body, (client req).headers), [req]) := by
  simp [execute, h, h200]

theorem execute_err {ch : Checker} {client : Client} {call : APICall}
    {params : List (String × String)} {req : Request}
    (h : requestFor ch call params = some req) (hst : (client req).statusCode ≠ 200) :
    execute ch client call params =
      (.error (.err (newAPIError call ("Status " ++ (client req).status) (client req).headers)),
       [req]) := by
  simp [execute, h, hst]

theorem check_checker_unverified {ch : Checker} (client : Client)
    {values : List (String × String)} (h : ch.verified = false) :
    (check ch client values).checker =
      (match (verify ch client).1 with
      | .ok _ => { ch with verified := true }
      | .error _ => ch) := by
  rw [check_unverified client h]
  rcases hv : verify ch client with ⟨f | u, tr⟩ <;> simp [hv, checkBody_checker]

theorem submit_checker_unverified {ch : Checker} (client : Client) {call : APICall}
    {values : List (String × String)} (h : ch.verified = false) :
    (submit ch client call values).checker =
      (match (verify ch client).1 with
      | .ok _ => { ch with verified := true }
      | .error _ => ch) := by
  rw [submit_unverified client h]
  rcases hv : verify ch client with ⟨f | u, tr⟩ <;> simp [hv, submitBody_checker]

theorem stepOp_checker_unverified {ch : Checker} (client : Client) (op : Op)
    (h : ch.verified = false) :
    (stepOp ch client op).1 =
      (match (verify ch client).1 with
      | .ok _ => { ch with verified := true }
      | .error _ => ch) := by
  cases op with
  | doCheck v => exact check_checker_unverified client h
  | doSubmitHam v => exact submit_checker_unverified client h
  | doSubmitSpam v => exact submit_checker_unverified client h

/-! Concrete clients used by the witnesses. -/

/-- A service that always answers 200 with body "valid". -/
def cValid : Client :=
  fun _ => { statusCode := 200, status := "200 OK", headers := [], body := "valid" }

/-- A service that always answers 200 with body "false" (ham). -/
def cHam : Client :=
  fun _ => { statusCode := 200, status := "200 OK", headers := [], body := "false" }

/-- A service that always answers HTTP 500. -/
def c500 : Client :=
  fun _ => { statusCode := 500, status := "500 Internal Server Error", headers := [],
             body := "oops" }

/-- A service that always answers 200 with body "invalid" and a
diagnostic hint header. -/
def cInvalid : Client :=
  fun _ => { statusCode := 200, status := "200 OK",
             headers := [("X-Akismet-Debug-Help", "bad key")], body := "invalid" }

/-- A service that always answers 200 with the thank-you literal. -/
def cThanks : Client :=
  fun _ => { statusCode := 200, status := "200 OK", headers := [],
             body := "Thanks for making the web a better place." }

/-! The specification claims. -/

/-- C1: on any Checker instance, a public call (Check, SubmitHam or
SubmitSpam) triggers exactly one verification request when the instance
is Unverified and zero when it is Verified; a Verified instance is left
unchanged by any call (so a later structured failure cannot reset it),
and once an instance is Verified every subsequent sequence of public
calls triggers zero further verification requests. -/
theorem claim_C1 (client : Client) (ch : Checker) (op : Op) :
    countVerify (stepOp ch client op).2 = (if ch.verified = true then 0 else 1) ∧
    (ch.verified = true → (stepOp ch client op).1 = ch) ∧
    (∀ ops : List Op, (stepOp ch client op).1.verified = true →
      countVerify (runOps (stepOp ch client op).1 client ops).2 = 0) := by
  refine ⟨stepOp_count ch client op, fun h => stepOp_checker_verified client op h, ?_⟩
  intro ops h
  exact runOps_count_zero client ops _ h

/-- Witness for C1 at a concrete unverified Checker whose verification
succeeds: the first call sends one verification request and two
subsequent calls send none. -/
theorem claim_C1_witness :
    countVerify (stepOp (NewChecker "k" "s") cValid (.doCheck [])).2 = 1 ∧
    (stepOp (NewChecker "k" "s") cValid (.doCheck [])).1.verified = true ∧
    countVerify (runOps (stepOp (NewChecker "k" "s") cValid (.doCheck [])).1 cValid
      [.doCheck [], .doSubmitHam []]).2 = 0 := by
  have h := claim_C1 cValid (NewChecker "k" "s") (.doCheck [])
  refine ⟨?_, ?_, ?_⟩
  · have h1 := h.1
    simpa [NewChecker] using h1
  · rfl
  · exact h.2.2 [.doCheck [], .doSubmitHam []] (by rfl)

/-- C2: verification succeeds exactly when the service answers the
verification request with status 200 and body "valid"; a non-200
status yields the structured call error for the verify-key method, a
200 answer with any other body yields the structured key-verification
error, and on an Unverified instance a public call transitions to
Verified exactly when the verification succeeded (otherwise the
instance remains Unverified and the next call re-runs verification). -/
theorem claim_C2 (ch : Checker) (client : Client) :
    ((verify ch client).1 = .ok () ↔
      ((client (verifyReq ch)).statusCode = 200 ∧
        (client (verifyReq ch)).body = respVerified)) ∧
    ((client (verifyReq ch)).statusCode ≠ 200 →
      (verify ch client).1 = .error (.err (newAPIError APIVerifyKey
        ("Status " ++ (client (verifyReq ch)).status) (client (verifyReq ch)).headers))) ∧
    ((client (verifyReq ch)).statusCode = 200 →
      (client (verifyReq ch)).body ≠ respVerified →
      (verify ch client).1 = .error (.err (newAuthError ch.key ch.site
        (client (verifyReq ch)).body (client (verifyReq ch)).headers))) ∧
    (ch.verified = false → ∀ op : Op,
      ((stepOp ch client op).1.verified = true ↔ (verify ch client).1 = .ok ())) := by
  refine ⟨?_, ?_, ?_, ?_⟩
  · rw [verify_eq]
    split_ifs with h1 h2 <;> simp_all
  · intro hst
    rw [verify_eq]
    simp [hst]
  · intro h200 hbody
    rw [verify_eq]
    simp [h200, hbody]
  · intro h op
    rw [stepOp_checker_unverified client op h]
    rcases hv : (verify ch client).1 with f | u
    · simp [h]
    · cases u
      simp

/-- Witness for C2: a 200/"valid" answer verifies a concrete unverified
Checker, a 500 answer produces the structured status-line error, and a
200/"invalid" answer produces the structured key error. -/
theorem claim_C2_witness :
    ((stepOp (NewChecker "k" "s") cValid (.doCheck [])).1.verified = true) ∧
    (verify (NewChecker "k" "s") c500).1 = .error (.err (newAPIError APIVerifyKey
      ("Status " ++ "500 Internal Server Error") [])) ∧
    (verify (NewChecker "k" "s") cInvalid).1 = .error (.err (newAuthError "k" "s"
      "invalid" [("X-Akismet-Debug-Help", "bad key")])) := by
  refine ⟨?_, ?_, ?_⟩
  · exact ((claim_C2 (NewChecker "k" "s") cValid).2.2.2 rfl (.doCheck [])).2
      ((claim_C2 (NewChecker "k" "s") cValid).1.2 (by exact ⟨rfl, rfl⟩))
  · exact (claim_C2 (NewChecker "k" "s") c500).2.1 (by decide)
  · exact (claim_C2 (NewChecker "k" "s") cInvalid).2.2.1 rfl (by decide)

theorem checkBody_unknown_iff (ch : Checker) (client : Client)
    (values : List (String × String)) (tr0 : List Request) :
    ((checkBody ch client values tr0).status = StatusUnknown ↔
      (checkBody ch client values tr0).error ≠ none) := by
  rcases h : execute ch client APICheckComment values with ⟨f | ⟨body, header⟩, tr⟩
  · simp [checkBody, h]
  · simp only [checkBody, h]
    split_ifs <;> simp [StatusHam, StatusUnknown, StatusProbableSpam, StatusDefiniteSpam]

theorem check_unknown_iff (ch : Checker) (client : Client) (values : List (String × String)) :
    ((check ch client values).status = StatusUnknown ↔
      (check ch client values).error ≠ none) := by
  by_cases h : ch.verified = true
  · rw [check_verified client h]
    exact checkBody_unknown_iff _ _ _ _
  · rw [check_unverified client (by simpa using h)]
    rcases hv : verify ch client with ⟨f | u, tr⟩
    · simp [hv]
    · simp only [hv]
      exact checkBody_unknown_iff _ _ _ _

/-- C3: for a Verified Checker answered with HTTP 200, Check maps body
"false" to StatusHam, body "true" with pro-tip header "discard" to
StatusDefiniteSpam, body "true" otherwise to StatusProbableSpam, and
any other body to StatusUnknown with the structured call error that
carries the body and the diagnostic hint header; and in every
execution Check returns StatusUnknown exactly when it returns an
error. -/
theorem claim_C3 (ch : Checker) (client : Client) (values : List (String × String)) :
    ((check ch client values).status = StatusUnknown ↔
      (check ch client values).error ≠ none) ∧
    (ch.verified = true → ∀ req, requestFor ch APICheckComment values = some req →
      (client req).statusCode = 200 →
      (((client req).body = respHam →
        check ch client values = ⟨StatusHam, none, ch, [req]⟩) ∧
       ((client req).body = respSpam → headerGet (client req).headers hdrProTip = respDiscard →
        check ch client values = ⟨StatusDefiniteSpam, none, ch, [req]⟩) ∧
       ((client req).body = respSpam → headerGet (client req).headers hdrProTip ≠ respDiscard →
        check ch client values = ⟨StatusProbableSpam, none, ch, [req]⟩) ∧
       ((client req).body ≠ respHam → (client req).body ≠ respSpam →
        check ch client values = ⟨StatusUnknown,
          some (.err (newAPIError APICheckComment (client req).body (client req).headers)),
          ch, [req]⟩))) := by
  refine ⟨check_unknown_iff ch client values, ?_⟩
  intro hverified req hreq h200
  rw [check_verified client hverified]
  simp only [checkBody, execute_ok hreq h200]
  refine ⟨?_, ?_, ?_, ?_⟩
  · intro hb
    simp [hb]
  · intro hb hd
    have hss : ¬(respSpam = respHam) := by decide
    simp [hb, hd, hss]
  · intro hb hd
    have hss : ¬(respSpam = respHam) := by decide
    simp [hb, hd, hss]
  · intro h1 h2
    simp [h1, h2]

/-- Witness for C3: a Verified Checker receiving 200/"false" returns
StatusHam with no error and the expected single request. -/
theorem claim_C3_witness :
    check ⟨"k", "s", true⟩ cHam [] =
      ⟨StatusHam, none, ⟨"k", "s", true⟩,
        [{ call := APICheckComment,
           url := "https://k.rest.akismet.com/1.1/comment-check",
           params := [("blog", "s")] }]⟩ :=
  ((claim_C3 ⟨"k", "s", true⟩ cHam []).2 rfl _ rfl rfl).1 rfl

theorem submit_result_iff (ch : Checker) (client : Client) (call : APICall)
    (values : List (String × String)) (h : ch.verified = true) {req : Request}
    (hreq : requestFor ch call values = some req) :
    (((submit ch client call values).error = none ↔
      ((client req).statusCode = 200 ∧ (client req).body = respSubmitted)) ∧
     ((client req).statusCode = 200 → (client req).body ≠ respSubmitted →
      (submit ch client call values).error =
        some (.err (newAPIError call (client req).body (client req).headers)))) := by
  rw [submit_verified client h]
  by_cases h200 : (client req).statusCode = 200
  · simp only [submitBody, execute_ok hreq h200]
    by_cases hb : (client req).body = respSubmitted <;> simp [hb, h200]
  · simp only [submitBody, execute_err hreq h200]
    simp [h200]

/-- C4: for a Verified Checker, SubmitHam and SubmitSpam return no
error exactly when the service answers 200 with the fixed thank-you
literal; a 200 answer with any other body yields the structured call
error carrying the method and the raw response body. -/
theorem claim_C4 (ch : Checker) (client : Client) (values : List (String × String))
    (h : ch.verified = true) :
    (∀ req, requestFor ch APISubmitHam values = some req →
      (((submitHam ch client values).error = none ↔
        ((client req).statusCode = 200 ∧ (client req).body = respSubmitted)) ∧
       ((client req).statusCode = 200 → (client req).body ≠ respSubmitted →
        (submitHam ch client values).error =
          some (.err (newAPIError APISubmitHam (client req).body (client req).headers))))) ∧
    (∀ req, requestFor ch APISubmitSpam values = some req →
      (((submitSpam ch client values).error = none ↔
        ((client req).statusCode = 200 ∧ (client req).body = respSubmitted)) ∧
       ((client req).statusCode = 200 → (client req).body ≠ respSubmitted →
        (submitSpam ch client values).error =
          some (.err (newAPIError APISubmitSpam (client req).body (client req).headers))))) := by
  constructor
  · intro req hreq
    exact submit_result_iff ch client APISubmitHam values h hreq
  · intro req hreq
    exact submit_result_iff ch client APISubmitSpam values h hreq

/-- Witness for C4: a Verified Checker receiving the thank-you body
reports no error from SubmitHam, and one receiving "invalid" gets the
structured error carrying method and raw body. -/
theorem claim_C4_witness :
    (submitHam ⟨"k", "s", true⟩ cThanks []).error = none ∧
    (submitSpam ⟨"k", "s", true⟩ cInvalid []).error =
      some (.err (newAPIError APISubmitSpam "invalid"
        [("X-Akismet-Debug-Help", "bad key")])) := by
  constructor
  · exact (((claim_C4 ⟨"k", "s", true⟩ cThanks [] rfl).1 _ rfl).1).2 ⟨rfl, rfl⟩
  · exact ((claim_C4 ⟨"k", "s", true⟩ cInvalid [] rfl).2 _ rfl).2 rfl (by decide)

theorem execute_trace_params (ch : Checker) (client : Client) (call : APICall)
    (params : List (String × String)) :
    ∀ r ∈ (execute ch client call params).2,
      r.params = mergeMaps [[(pkSite, ch.site)], params] := by
  cases hreq : requestFor ch call params with
  | none => simp [execute, hreq]
  | some req =>
    rw [execute_trace_some hreq]
    intro r hr
    simp only [List.mem_singleton] at hr
    subst hr
    exact requestFor_params hreq

theorem check_trace_mem (ch : Checker) (client : Client) (v : List (String × String)) :
    ∀ r ∈ (check ch client v).trace, r.call = APIVerifyKey ∨
      r.params = mergeMaps [[(pkSite, ch.site)], v] := by
  by_cases h : ch.verified = true
  · rw [check_verified client h, checkBody_trace, List.nil_append]
    intro r hr
    exact .inr (execute_trace_params ch client APICheckComment v r hr)
  · rw [check_unverified client (by simpa using h)]
    rcases hv : verify ch client with ⟨f | u, tr⟩ <;>
      have htr : tr = [verifyReq ch] := by
        have := verify_trace ch client
        rw [hv] at this
        exact this
    · simp only [htr]
      intro r hr
      simp only [List.mem_singleton] at hr
      subst hr
      exact .inl rfl
    · simp only [checkBody_trace, htr]
      intro r hr
      rcases List.mem_append.1 hr with hl | hrr
      · simp only [List.mem_singleton] at hl
        subst hl
        exact .inl rfl
      · exact .inr (execute_trace_params _ client APICheckComment v r hrr)

theorem submit_trace_mem (ch : Checker) (client : Client) (call : APICall)
    (v : List (String × String)) :
    ∀ r ∈ (submit ch client call v).trace, r.call = APIVerifyKey ∨
      r.params = mergeMaps [[(pkSite, ch.site)], v] := by
  by_cases h : ch.verified = true
  · rw [submit_verified client h, submitBody_trace, List.nil_append]
    intro r hr
    exact .inr (execute_trace_params ch client call v r hr)
  · rw [submit_unverified client (by simpa using h)]
    rcases hv : verify ch client with ⟨f | u, tr⟩ <;>
      have htr : tr = [verifyReq ch] := by
        have := verify_trace ch client
        rw [hv] at this
        exact this
    · simp only [htr]
      intro r hr
      simp only [List.mem_singleton] at hr
      subst hr
      exact .inl rfl
    · simp only [submitBody_trace, htr]
      intro r hr
      rcases List.mem_append.1 hr with hl | hrr
      · simp only [List.mem_singleton] at hl
        subst hl
        exact .inl rfl
      · exact .inr (execute_trace_params _ client call v r hrr)

theorem stepOp_trace_mem (ch : Checker) (client : Client) (op : Op) :
    ∀ r ∈ (stepOp ch client op).2, r.call = APIVerifyKey ∨
      r.params = mergeMaps [[(pkSite, ch.site)], op.values] := by
  cases op with
  | doCheck v => exact check_trace_mem ch client v
  | doSubmitHam v => exact submit_trace_mem ch client APISubmitHam v
  | doSubmitSpam v => exact submit_trace_mem ch client APISubmitSpam v

/-- C5: every non-verification request sent by a public Checker call
carries as its parameter set the caller map merged over the default
site entry; on any key, the caller-supplied value wins, the default
site value fills in only for the site key when the caller did not
supply it, and every other caller entry passes through unchanged. -/
theorem claim_C5 (ch : Checker) (client : Client) (op : Op) :
    ∀ r ∈ (stepOp ch client op).2, r.call ≠ APIVerifyKey →
      (r.params = mergeMaps [[(pkSite, ch.site)], op.values] ∧
       ((op.values.map Prod.fst).Nodup → ∀ k,
        mapGet r.params k =
          (mapGet op.values k).or (if pkSite = k then some ch.site else none))) := by
  intro r hr hne
  rcases stepOp_trace_mem ch client op r hr with hcall | hp
  · exact absurd hcall hne
  · refine ⟨hp, fun hnd k => ?_⟩
    rw [hp, mapGet_mergeMaps_default ch.site op.values hnd k]

/-- Witness for C5: a caller-supplied site entry overrides the default
one in the request actually sent, and an absent key stays absent. -/
theorem claim_C5_witness :
    mapGet ({ call := APICheckComment,
              url := "https://k.rest.akismet.com/1.1/comment-check",
              params := [("blog", "o")] } : Request).params "blog" = some "o" := by
  have h := claim_C5 ⟨"k", "s", true⟩ cHam (.doCheck [("blog", "o")])
      { call := APICheckComment,
        url := "https://k.rest.akismet.com/1.1/comment-check",
        params := [("blog", "o")] }
      (by decide) (by decide)
  exact (h.2 (by decide) "blog").trans (by decide)

/-- C6: any response whose HTTP status is not 200 makes the call fail,
whatever the body: `execute` returns the structured call error whose
result field is "Status " followed by the status line (the body is
never consulted), exactly one request is sent, and a Verified
Checker's Check and submit surface that error unchanged. -/
theorem claim_C6 (ch : Checker) (client : Client) :
    (∀ (call : APICall) (params : List (String × String)) (req : Request),
      requestFor ch call params = some req → (client req).statusCode ≠ 200 →
      execute ch client call params =
        (.error (.err (newAPIError call ("Status " ++ (client req).status)
          (client req).headers)), [req])) ∧
    (ch.verified = true → ∀ (params : List (String × String)) (req : Request),
      requestFor ch APICheckComment params = some req → (client req).statusCode ≠ 200 →
      check ch client params = ⟨StatusUnknown, some (.err (newAPIError APICheckComment
        ("Status " ++ (client req).status) (client req).headers)), ch, [req]⟩) ∧
    (ch.verified = true → ∀ (call : APICall) (params : List (String × String)) (req : Request),
      requestFor ch call params = some req → (client req).statusCode ≠ 200 →
      submit ch client call params = ⟨some (.err (newAPIError call
        ("Status " ++ (client req).status) (client req).headers)), ch, [req]⟩) := by
  refine ⟨fun call params req hreq hst => execute_err hreq hst, ?_, ?_⟩
  · intro h params req hreq hst
    rw [check_verified client h]
    simp [checkBody, execute_err hreq hst]
  · intro h call params req hreq hst
    rw [submit_verified client h]
    simp [submitBody, execute_err hreq hst]

/-- Witness for C6: a SubmitSpam call answered with HTTP 500 fails
with the formatted status line "Status 500 Internal Server Error" in
the error's result field, after exactly one request. -/
theorem claim_C6_witness :
    submit ⟨"k", "s", true⟩ c500 APISubmitSpam [] =
      ⟨some (.err (newAPIError APISubmitSpam ("Status " ++ "500 Internal Server Error") [])),
       ⟨"k", "s", true⟩,
       [{ call := APISubmitSpam, url := "https://k.rest.akismet.com/1.1/submit-spam",
          params := [("blog", "s")] }]⟩ :=
  (claim_C6 ⟨"k", "s", true⟩ c500).2.2 rfl APISubmitSpam [] _ rfl (by decide)

/-- C7: each header-injecting decorator sets its headers on the
request and then delegates inward, so for two chained decorators the
inner one (the one closest to the final send) wins on a shared header
name; in particular with D1 setting User-Agent "A" wrapping D2
setting User-Agent "B" around the base transport, the base transport
sees User-Agent "B". -/
theorem claim_C7 :
    (∀ (inner : HClient) (hs req : List (String × String)),
      baseSees (.wrap hs inner) req = baseSees inner (setHeaders req hs)) ∧
    (∀ (req h1 h2 : List (String × String)), (h2.map Prod.fst).Nodup → ∀ k,
      mapGet (baseSees (.wrap h1 (.wrap h2 .base)) req) k =
        (mapGet h2 k).or (mapGet (setHeaders req h1) k)) ∧
    mapGet (baseSees (.wrap [(hdrUserAgent, "A")] (.wrap [(hdrUserAgent, "B")] .base)) [])
      hdrUserAgent = some "B" := by
  refine ⟨fun inner hs req => rfl, ?_, by decide⟩
  intro req h1 h2 hnd k
  exact mapGet_setHeaders (setHeaders req h1) h2 hnd k

/-- Witness for C7 at the concrete two-decorator chain of the claim. -/
theorem claim_C7_witness :
    mapGet (baseSees (.wrap [("User-Agent", "A")] (.wrap [("User-Agent", "B")] .base)) [])
      "User-Agent" = some "B" := by
  have h := claim_C7.2.1 [] [("User-Agent", "A")] [("User-Agent", "B")] (by decide) "User-Agent"
  exact h.trans (by decide)

/-- C9: the endpoint URL is scheme://[key.]host/version/method, where
the verify-key call omits the key prefix and the three content calls
include it; and endpoint construction is deterministic, so building
the URL twice for the same call and key yields identical strings. -/
theorem claim_C9 (key : String) :
    endpoint APIVerifyKey key =
      some (reqScheme ++ "://" ++ reqHost ++ "/" ++ reqAPIVersion ++ "/" ++ reqVerifyKey) ∧
    endpoint APICheckComment key =
      some (reqScheme ++ "://" ++ (key ++ "." ++ reqHost) ++ "/" ++ reqAPIVersion ++ "/" ++
        reqCheckComment) ∧
    endpoint APISubmitHam key =
      some (reqScheme ++ "://" ++ (key ++ "." ++ reqHost) ++ "/" ++ reqAPIVersion ++ "/" ++
        reqSubmitHam) ∧
    endpoint APISubmitSpam key =
      some (reqScheme ++ "://" ++ (key ++ "." ++ reqHost) ++ "/" ++ reqAPIVersion ++ "/" ++
        reqSubmitSpam) ∧
    (∀ call : APICall, endpoint call key = endpoint call key) :=
  ⟨rfl, rfl, rfl, rfl, fun _ => rfl⟩

theorem execute_not_panic {ch : Checker} {client : Client} {call : APICall}
    {params : List (String × String)} (h : (endpoint call ch.key).isSome = true) :
    ∀ f, (execute ch client call params).1 = .error f → f.isPanic = false := by
  rcases hr : requestFor ch call params with _ | req
  · rcases ho : endpoint call ch.key with _ | u
    · rw [ho] at h
      simp at h
    · simp [requestFor, ho] at hr
  · intro f hf
    simp only [execute, hr] at hf
    split_ifs at hf
    simp only [Except.error.injEq] at hf
    cases hf
    rfl

theorem checkBody_not_panic (ch : Checker) (client : Client)
    (values : List (String × String)) (tr0 : List Request) :
    errIsPanic (checkBody ch client values tr0).error = false := by
  rcases h : execute ch client APICheckComment values with ⟨f | ⟨body, header⟩, tr⟩
  · have hp := execute_not_panic (show (endpoint APICheckComment ch.key).isSome = true from rfl)
      f (by rw [h])
    simp [checkBody, h, errIsPanic, hp]
  · simp only [checkBody, h]
    split_ifs <;> simp [errIsPanic, Failure.isPanic]

theorem submitBody_not_panic (ch : Checker) (client : Client) (call : APICall)
    (values : List (String × String)) (tr0 : List Request)
    (h : (endpoint call ch.key).isSome = true) :
    errIsPanic (submitBody ch client call values tr0).error = false := by
  rcases he : execute ch client call values with ⟨f | ⟨body, header⟩, tr⟩
  · have hp := execute_not_panic h f (by rw [he])
    simp [submitBody, he, errIsPanic, hp]
  · simp only [submitBody, he]
    split_ifs <;> simp [errIsPanic, Failure.isPanic]

theorem verify_not_panic (ch : Checker) (client : Client) :
    ∀ f, (verify ch client).1 = .error f → f.isPanic = false := by
  rw [verify_eq]
  split_ifs with h1 h2 <;> intro f hf
  · simp only [Except.error.injEq] at hf
    cases hf
    rfl
  · simp at hf
  · simp only [Except.error.injEq] at hf
    cases hf
    rfl

/-- C10: through the public Checker interface the endpoint builder is
only reached with the four defined APICall values, for which it always
yields a URL, so the unknown-call panic branch is unreachable: no
public operation can produce the panic outcome. -/
theorem claim_C10 (ch : Checker) (client : Client) (values : List (String × String)) :
    errIsPanic (check ch client values).error = false ∧
    errIsPanic (submitHam ch client values).error = false ∧
    errIsPanic (submitSpam ch client values).error = false ∧
    (endpoint APIVerifyKey ch.key).isSome = true ∧
    (endpoint APICheckComment ch.key).isSome = true ∧
    (endpoint APISubmitHam ch.key).isSome = true ∧
    (endpoint APISubmitSpam ch.key).isSome = true := by
  have hsub : ∀ call : APICall, (endpoint call ch.key).isSome = true →
      errIsPanic (submit ch client call values).error = false := by
    intro call hcall
    by_cases h : ch.verified = true
    · rw [submit_verified client h]
      exact submitBody_not_panic ch client call values [] hcall
    · rw [submit_unverified client (by simpa using h)]
      rcases hv : verify ch client with ⟨f | u, tr⟩
      · have := verify_not_panic ch client f (by rw [hv])
        simp [errIsPanic, this]
      · exact submitBody_not_panic _ client call values tr hcall
  refine ⟨?_, hsub APISubmitHam rfl, hsub APISubmitSpam rfl, rfl, rfl, rfl, rfl⟩
  by_cases h : ch.verified = true
  · rw [check_verified client h]
    exact checkBody_not_panic ch client values []
  · rw [check_unverified client (by simpa using h)]
    rcases hv : verify ch client with ⟨f | u, tr⟩
    · have := verify_not_panic ch client f (by rw [hv])
      simp [errIsPanic, this]
    · exact checkBody_not_panic _ client values tr

/-! Byte-level model of Go `encodeParams`. A Go string is an arbitrary
byte sequence, modelled as a list of naturals below 256, so that the
exact percent-encoding of `url.Values.Encode` (and the decoding of
`url.ParseQuery`, which the spec's round-trip property refers to) can
be stated for every string. -/

/-- A Go string as its byte sequence. -/
abbrev BStr := List Nat

/-- The bytes Go `url.shouldEscape` keeps literal in a query
component: ASCII alphanumerics and the marks `-` `_` `.` `~`. -/
def isUnreserved (b : Nat) : Bool :=
  decide ((65 ≤ b ∧ b ≤ 90) ∨ (97 ≤ b ∧ b ≤ 122) ∨ (48 ≤ b ∧ b ≤ 57) ∨
    b = 45 ∨ b = 95 ∨ b = 46 ∨ b = 126)

/-- Uppercase hex digit byte for a value below 16 (Go "0123456789ABCDEF"). -/
def hexDigit (n : Nat) : Nat :=
  if n < 10 then 48 + n else 55 + n

/-- Value of a hex digit byte (Go `unhex`). -/
def hexVal (c : Nat) : Nat :=
  if 48 ≤ c ∧ c ≤ 57 then c - 48
  else if 65 ≤ c ∧ c ≤ 70 then c - 55
  else if 97 ≤ c ∧ c ≤ 102 then c - 87
  else 0

/-- Go `url.QueryEscape` on one byte: unreserved bytes stay literal,
the space byte becomes `+` (43), everything else becomes a percent
escape `%XX` (37 followed by two hex digit bytes). -/
def escapeByte (b : Nat) : List Nat :=
  if isUnreserved b then [b]
  else if b = 32 then [43]
  else [37, hexDigit (b / 16), hexDigit (b % 16)]

/-- Go `url.QueryEscape` on a whole string. -/
def queryEscape (s : BStr) : BStr :=
  s.flatMap escapeByte

/-- Go `url.QueryUnescape` in query mode: `+` becomes the space byte
and a percent escape is decoded from its two hex digits. On a
malformed escape Go returns an error; that case cannot arise from
`queryEscape` output and is modelled by leaving the bytes in place. -/
def queryUnescape : BStr → BStr
  | [] => []
  | b :: bs =>
    if b = 37 then
      match bs with
      | h1 :: h2 :: rest => (hexVal h1 * 16 + hexVal h2) :: queryUnescape rest
      | _ => b :: bs
    else if b = 43 then 32 :: queryUnescape bs
    else b :: queryUnescape bs

/-- Split a form piece at its first `=` (61), as Go `url.ParseQuery`
does with `strings.Cut(piece, "=")`. -/
def splitKV : BStr → BStr × BStr
  | [] => ([], [])
  | b :: bs =>
    if b = 61 then ([], bs)
    else
      let p := splitKV bs
      (b :: p.1, p.2)

/-- The `url.Values` map built by the loop of Go `encodeParams`:
every entry with a non-empty value is `Set` on an initially empty
map. -/
def setParams (params : List (BStr × BStr)) : List (BStr × BStr) :=
  params.foldl (fun acc p => if p.2 = [] then acc else mapSet acc p.1 p.2) []

/-- Bytewise comparison of byte strings, as Go `sort.Strings` uses. -/
def bytesLE : BStr → BStr → Bool
  | [], _ => true
  | _ :: _, [] => false
  | a :: as, b :: bs => if a < b then true else if b < a then false else bytesLE as bs

/-- Go `url.Values.Encode` composed with the filtering loop of
`encodeParams`: sort the entries by key, write each one as escaped
key `=` escaped value, and join the pieces with `&` (38). -/
def encodeParams (params : List (BStr × BStr)) : BStr :=
  List.intercalate [38]
    (((setParams params).mergeSort (fun p q => bytesLE p.1 q.1)).map
      (fun p => queryEscape p.1 ++ 61 :: queryEscape p.2))

/-- Go `url.ParseQuery`: split the query on `&`, split each piece at
its first `=`, and unescape both halves. The empty query yields the
empty map. -/
def decodeParams (s : BStr) : List (BStr × BStr) :=
  if s = [] then []
  else (s.splitOn 38).map
    (fun piece => (queryUnescape (splitKV piece).1, queryUnescape (splitKV piece).2))

/-! Round-trip lemmas for the byte escaping. -/

theorem hexVal_hexDigit (n : Nat) (h : n < 16) : hexVal (hexDigit n) = n := by
  unfold hexDigit hexVal
  split_ifs <;> omega

theorem hexDigit_lt (n : Nat) (h : n < 16) : hexDigit n < 128 ∧ hexDigit n ≠ 38 ∧ hexDigit n ≠ 61 := by
  unfold hexDigit
  split_ifs <;> omega

theorem isUnreserved_facts {b : Nat} (h : isUnreserved b = true) :
    b ≠ 37 ∧ b ≠ 43 ∧ b ≠ 38 ∧ b ≠ 61 := by
  simp only [isUnreserved, decide_eq_true_eq] at h
  omega

theorem mem_escapeByte_ne {b : Nat} (hb : b < 256) :
    ∀ x ∈ escapeByte b, x ≠ 38 ∧ x ≠ 61 := by
  intro x hx
  unfold escapeByte at hx
  split_ifs at hx with h1 h2
  · simp only [List.mem_singleton] at hx
    subst hx
    exact ⟨(isUnreserved_facts h1).2.2.1, (isUnreserved_facts h1).2.2.2⟩
  · simp only [List.mem_singleton] at hx
    omega
  · have hhi : b / 16 < 16 := by omega
    have hlo : b % 16 < 16 := Nat.mod_lt _ (by omega)
    simp only [List.mem_cons, List.not_mem_nil, or_false] at hx
    rcases hx with rfl | rfl | rfl
    · omega
    · exact ⟨(hexDigit_lt _ hhi).2.1, (hexDigit_lt _ hhi).2.2⟩
    · exact ⟨(hexDigit_lt _ hlo).2.1, (hexDigit_lt _ hlo).2.2⟩

theorem mem_queryEscape_ne {s : BStr} (hs : ∀ b ∈ s, b < 256) :
    ∀ x ∈ queryEscape s, x ≠ 38 ∧ x ≠ 61 := by
  intro x hx
  rcases List.mem_flatMap.1 hx with ⟨b, hb, hxb⟩
  exact mem_escapeByte_ne (hs b hb) x hxb

theorem queryUnescape_cons (b : Nat) (bs : BStr) :
    queryUnescape (b :: bs) =
      (if b = 37 then
        match bs with
        | h1 :: h2 :: rest => (hexVal h1 * 16 + hexVal h2) :: queryUnescape rest
        | _ => b :: bs
      else if b = 43 then 32 :: queryUnescape bs
      else b :: queryUnescape bs) := by
  rw [queryUnescape.eq_def]
  rfl

theorem queryUnescape_escapeByte (b : Nat) (hb : b < 256) (bs : BStr) :
    queryUnescape (escapeByte b ++ bs) = b :: queryUnescape bs := by
  unfold escapeByte
  split_ifs with h1 h2
  · have hf := isUnreserved_facts h1
    simp [queryUnescape_cons, hf.1, hf.2.1]
  · subst h2
    simp [queryUnescape_cons]
  · have hhi : b / 16 < 16 := by omega
    have hlo : b % 16 < 16 := Nat.mod_lt _ (by omega)
    have hb16 : b / 16 * 16 + b % 16 = b := by omega
    simp [queryUnescape_cons, hexVal_hexDigit _ hhi, hexVal_hexDigit _ hlo, hb16]

theorem queryUnescape_queryEscape (s : BStr) (h : ∀ b ∈ s, b < 256) :
    queryUnescape (queryEscape s) = s := by
  induction s with
  | nil => rfl
  | cons b bs ih =>
    have hb : b < 256 := h b (by simp)
    rw [queryEscape, List.flatMap_cons]
    rw [queryUnescape_escapeByte b hb]
    rw [show bs.flatMap escapeByte = queryEscape bs from rfl,
        ih (fun x hx => h x (by simp [hx]))]

theorem splitKV_append (k v : BStr) (hk : ∀ x ∈ k, x ≠ 61) :
    splitKV (k ++ 61 :: v) = (k, v) := by
  induction k with
  | nil => simp [splitKV]
  | cons a as ih =>
    have ha : a ≠ 61 := hk a (by simp)
    simp [splitKV, ha, ih (fun x hx => hk x (by simp [hx]))]

theorem mapSet_append {α β : Type} [DecidableEq α] (acc : List (α × β)) (k : α) (v : β)
    (h : k ∉ acc.map Prod.fst) : mapSet acc k v = acc ++ [(k, v)] := by
  induction acc with
  | nil => rfl
  | cons p rest ih =>
    obtain ⟨a, b⟩ := p
    simp only [List.map_cons, List.mem_cons] at h
    push_neg at h
    simp only [mapSet, if_neg (Ne.symm h.1), ih h.2, List.cons_append]

theorem setParams_foldl (params : List (BStr × BStr)) :
    ∀ acc : List (BStr × BStr), (params.map Prod.fst).Nodup →
      (∀ q ∈ params, q.1 ∉ acc.map Prod.fst) →
      params.foldl (fun acc p => if p.2 = [] then acc else mapSet acc p.1 p.2) acc =
        acc ++ params.filter (fun p => decide (¬ p.2 = [])) := by
  induction params with
  | nil =>
    intro acc _ _
    simp
  | cons p rest ih =>
    intro acc hnd hfresh
    simp only [List.map_cons, List.nodup_cons] at hnd
    rw [List.foldl_cons]
    by_cases hp : p.2 = []
    · rw [if_pos hp, ih acc hnd.2 (fun q hq => hfresh q (List.mem_cons_of_mem _ hq))]
      simp [List.filter_cons, hp]
    · rw [if_neg hp]
      have hfr : p.1 ∉ acc.map Prod.fst := hfresh p (List.mem_cons_self _ _)
      rw [mapSet_append acc p.1 p.2 hfr]
      rw [ih (acc ++ [(p.1, p.2)]) hnd.2 ?fresh]
      · simp [List.filter_cons, hp]
      case fresh =>
        intro q hq
        have h1 : q.1 ∉ acc.map Prod.fst := hfresh q (List.mem_cons_of_mem _ hq)
        have h2 : q.1 ≠ p.1 := by
          intro he
          exact hnd.1 (he ▸ List.mem_map_of_mem Prod.fst hq)
        simp [List.map_append, h1, h2]

theorem setParams_eq_filter (m : List (BStr × BStr)) (hnd : (m.map Prod.fst).Nodup) :
    setParams m = m.filter (fun p => decide (¬ p.2 = [])) := by
  have h := setParams_foldl m [] hnd (by simp)
  simpa [setParams] using h

theorem bytesLE_total (a : BStr) : ∀ b : BStr, (bytesLE a b || bytesLE b a) = true := by
  induction a with
  | nil =>
    intro b
    simp [bytesLE]
  | cons x xs ih =>
    intro b
    cases b with
    | nil => simp [bytesLE]
    | cons y ys =>
      simp only [bytesLE]
      by_cases h1 : x < y
      · simp [h1]
      · by_cases h2 : y < x
        · simp [h1, h2]
        · have hxy : x = y := by omega
          subst hxy
          simp [h1, h2, ih ys]

theorem bytesLE_trans (a : BStr) :
    ∀ b c : BStr, bytesLE a b = true → bytesLE b c = true → bytesLE a c = true := by
  induction a with
  | nil =>
    intro b c _ _
    rfl
  | cons x xs ih =>
    intro b c hab hbc
    cases b with
    | nil => simp [bytesLE] at hab
    | cons y ys =>
      cases c with
      | nil => simp [bytesLE] at hbc
      | cons z zs =>
        simp only [bytesLE] at hab hbc ⊢
        by_cases hxy : x < y
        · by_cases hyz : y < z
          · simp [show x < z by omega]
          · by_cases hzy : z < y
            · simp [hyz, hzy] at hbc
            · have : y = z := by omega
              subst this
              simp [hxy]
        · by_cases hyx : y < x
          · simp [hxy, hyx] at hab
          · have : x = y := by omega
            subst this
            simp only [lt_irrefl, if_false] at hab
            by_cases hxz : x < z
            · simp [hxz]
            · by_cases hzx : z < x
              · simp [hxz, hzx] at hbc
              · have : x = z := by omega
                subst this
                simp only [lt_irrefl, if_false] at hbc ⊢
                exact ih ys zs hab hbc

theorem intercalate_single (p : List Nat) : List.intercalate [38] [p] = p := by
  simp [List.intercalate]

theorem intercalate_cons_cons (p q : List Nat) (qs : List (List Nat)) :
    List.intercalate [38] (p :: q :: qs) = p ++ 38 :: List.intercalate [38] (q :: qs) := by
  simp [List.intercalate, List.intersperse_cons_cons]

theorem intercalate_ne_nil (q : List Nat) (qs : List (List Nat)) (hq : q ≠ []) :
    List.intercalate [38] (q :: qs) ≠ [] := by
  cases qs with
  | nil =>
    rw [intercalate_single]
    exact hq
  | cons r rs =>
    rw [intercalate_cons_cons]
    cases q <;> simp

theorem getLast?_ne_38 {l : List Nat} (h : ∀ x ∈ l, x ≠ 38) : l.getLast? ≠ some 38 := by
  intro hc
  rcases List.getLast?_eq_some_iff.1 hc with ⟨ys, rfl⟩
  exact h 38 (by simp) rfl

theorem intercalate_getLast (P : List (List Nat))
    (hP : ∀ p ∈ P, (∀ x ∈ p, x ≠ 38) ∧ p ≠ []) :
    (List.intercalate [38] P).getLast? ≠ some 38 := by
  induction P with
  | nil => simp [List.intercalate]
  | cons p ps ih =>
    cases ps with
    | nil =>
      rw [intercalate_single]
      exact getLast?_ne_38 (hP p (by simp)).1
    | cons q qs =>
      rw [intercalate_cons_cons, List.getLast?_append]
      have hs : List.intercalate [38] (q :: qs) ≠ [] :=
        intercalate_ne_nil q qs (hP q (by simp)).2
      have htail := ih (fun r hr => hP r (List.mem_cons_of_mem _ hr))
      rcases hy : (List.intercalate [38] (q :: qs)).getLast? with _ | y
      · exact absurd (List.getLast?_eq_none_iff.1 hy) hs
      · have h38 : y ≠ 38 := by
          intro he
          exact htail (he ▸ hy)
        have hcons : (38 : Nat) :: List.intercalate [38] (q :: qs) =
            [38] ++ List.intercalate [38] (q :: qs) := rfl
        rw [hcons, List.getLast?_append, hy]
        simp [h38]

theorem decode_encode (m : List (BStr × BStr)) (hnd : (m.map Prod.fst).Nodup)
    (hbytes : ∀ p ∈ m, (∀ b ∈ p.1, b < 256) ∧ (∀ b ∈ p.2, b < 256)) :
    decodeParams (encodeParams m) =
      (setParams m).mergeSort (fun p q => bytesLE p.1 q.1) := by
  have hmemL : ∀ p ∈ (setParams m).mergeSort (fun p q => bytesLE p.1 q.1),
      (∀ b ∈ p.1, b < 256) ∧ (∀ b ∈ p.2, b < 256) := by
    intro p hp
    have hpm : p ∈ setParams m := List.mem_mergeSort.1 hp
    rw [setParams_eq_filter m hnd] at hpm
    exact hbytes p (List.mem_of_mem_filter hpm)
  rcases hLe : (setParams m).mergeSort (fun p q => bytesLE p.1 q.1) with _ | ⟨p, ps⟩
  · have he : encodeParams m = [] := by
      rw [encodeParams, hLe]
      rfl
    rw [he]
    rfl
  · rw [hLe] at hmemL
    have hence : encodeParams m =
        List.intercalate [38]
          ((p :: ps).map (fun q => queryEscape q.1 ++ 61 :: queryEscape q.2)) := by
      rw [encodeParams, hLe]
    have h38 : ∀ piece ∈ (p :: ps).map (fun q => queryEscape q.1 ++ 61 :: queryEscape q.2),
        (38 : Nat) ∉ piece := by
      intro piece hpiece
      rcases List.mem_map.1 hpiece with ⟨q, hq, rfl⟩
      intro hmem
      rcases List.mem_append.1 hmem with hk | hv
      · exact (mem_queryEscape_ne (hmemL q hq).1 _ hk).1 rfl
      · rcases List.mem_cons.1 hv with h61 | hv2
        · exact absurd h61 (by decide)
        · exact (mem_queryEscape_ne (hmemL q hq).2 _ hv2).1 rfl
    have hPne : (p :: ps).map (fun q => queryEscape q.1 ++ 61 :: queryEscape q.2) ≠ [] := by
      simp
    have hene : encodeParams m ≠ [] := by
      rw [hence]
      simp only [List.map_cons]
      apply intercalate_ne_nil
      simp
    simp only [decodeParams, if_neg hene]
    rw [hence, List.splitOn_intercalate _ 38 h38 hPne, List.map_map]
    have hid : ∀ q ∈ (p :: ps),
        ((fun piece => (queryUnescape (splitKV piece).1, queryUnescape (splitKV piece).2)) ∘
          (fun q => queryEscape q.1 ++ 61 :: queryEscape q.2)) q = id q := by
      intro q hq
      obtain ⟨hk, hv⟩ := hmemL q hq
      simp only [Function.comp_apply, id_eq]
      rw [splitKV_append _ _ (fun x hx => (mem_queryEscape_ne hk x hx).2)]
      simp only []
      rw [queryUnescape_queryEscape _ hk, queryUnescape_queryEscape _ hv]
    rw [List.map_congr_left hid, List.map_id]

theorem encodeParams_getLast (m : List (BStr × BStr)) (hnd : (m.map Prod.fst).Nodup)
    (hbytes : ∀ p ∈ m, (∀ b ∈ p.1, b < 256) ∧ (∀ b ∈ p.2, b < 256)) :
    (encodeParams m).getLast? ≠ some 38 := by
  rcases hLe : (setParams m).mergeSort (fun p q => bytesLE p.1 q.1) with _ | ⟨p, ps⟩
  · rw [encodeParams, hLe]
    simp [List.intercalate]
  · rw [encodeParams, hLe]
    apply intercalate_getLast
    intro piece hpiece
    rcases List.mem_map.1 hpiece with ⟨q, hq, rfl⟩
    have hqm : (∀ b ∈ q.1, b < 256) ∧ (∀ b ∈ q.2, b < 256) := by
      have hmem : q ∈ setParams m := List.mem_mergeSort.1 (by rw [hLe]; exact hq)
      rw [setParams_eq_filter m hnd] at hmem
      exact hbytes q (List.mem_of_mem_filter hmem)
    constructor
    · intro x hx
      rcases List.mem_append.1 hx with hk | hv
      · exact (mem_queryEscape_ne hqm.1 x hk).1
      · rcases List.mem_cons.1 hv with rfl | hv2
        · decide
        · exact (mem_queryEscape_ne hqm.2 x hv2).1
    · simp

/-- C8: encoding a parameter map and then decoding the resulting form
body reproduces exactly the entries of the map whose value is
non-empty (as a permutation, since a map has no entry order); the
decoded sequence comes out with keys in bytewise sorted order; and the
encoded body never ends with a dangling "&", even when the map encodes
to zero or one pieces. -/
theorem claim_C8 (m : List (BStr × BStr)) (hnd : (m.map Prod.fst).Nodup)
    (hbytes : ∀ p ∈ m, (∀ b ∈ p.1, b < 256) ∧ (∀ b ∈ p.2, b < 256)) :
    (decodeParams (encodeParams m)).Perm (m.filter (fun p => decide (¬ p.2 = []))) ∧
    List.Pairwise (fun p q : BStr × BStr => bytesLE p.1 q.1 = true)
      (decodeParams (encodeParams m)) ∧
    (encodeParams m).getLast? ≠ some 38 := by
  have hd := decode_encode m hnd hbytes
  refine ⟨?_, ?_, encodeParams_getLast m hnd hbytes⟩
  · rw [hd, ← setParams_eq_filter m hnd]
    exact List.mergeSort_perm (setParams m) _
  · rw [hd]
    have hs := List.sorted_mergeSort
      (fun (p q r : BStr × BStr) hpq hqr => bytesLE_trans p.1 q.1 r.1 hpq hqr)
      (fun (p q : BStr × BStr) => bytesLE_total p.1 q.1)
      (setParams m)
    simpa using hs

/-- Witness for C8 at the concrete map with entries 98 ("b") mapped to
118 ("v") and 97 ("a") mapped to the empty string: decoding the
encoding gives back exactly the non-empty entry, and the encoding does
not end in "&". -/
theorem claim_C8_witness :
    (decodeParams (encodeParams [([98], [118]), ([97], [])])).Perm
      ([([98], [118]), ([97], [])].filter (fun p => decide (¬ p.2 = []))) ∧
    (encodeParams [([98], [118]), ([97], [])]).getLast? ≠ some 38 := by
  have h := claim_C8 [([98], [118]), ([97], [])] (by decide) (by decide)
  exact ⟨h.1, h.2.2⟩

end Gokismet
